import Mathlib

/-!
Shallow embedding of `src/birdeye.py` (the `BirdEyeClient` class) and proofs
about its behaviour.

Modelling conventions:
* A JSON scalar value is `JsonVal`; a parsed HTTP response body is `Body`:
  either `malformed` (a body on which `resp.json()` raises, i.e. a JSON
  decode error, which in Python subclasses `ValueError`) or `obj fields`,
  a JSON object given as an association list of key/value pairs.
* The network is an oracle `net : String → String → Response` mapping an
  HTTP verb and a URL to the response the server would return.  The client
  state (the API key, the fixed headers) does not influence any of the
  client-side logic modelled here, so it is absorbed into the oracle.
* Each operation returns, besides its Python return value or raised error,
  the list of `(verb, url)` network requests it issued, in order.
* Python's `dict` is modelled as an association list with Python's
  assignment semantics (`dictInsert`: replace in place, else append).
* Python errors are `Err`; all three are `ValueError` at runtime, carrying
  the message strings rendered by `errMsg` / `overviewErrMsg` exactly as in
  the source's f-strings.
* `upper` embeds Python's `str.upper` (ASCII case mapping; all method
  strings appearing in the claims are ASCII).
-/

/-- A JSON scalar value as stored, untouched, by the Python code.  Numbers
are represented as rationals (the code never computes with them, it only
moves them around, so any faithful carrier works). -/
inductive JsonVal where
  | num (value : ℚ)
  | str (value : String)
  | bool (value : Bool)
  | null
  deriving DecidableEq

/-- The parsed form of an HTTP response body: either `resp.json()` raises
(`malformed`) or it returns a JSON object with the given fields. -/
inductive Body where
  | malformed
  | obj (fields : List (String × JsonVal))
  deriving DecidableEq

/-- An HTTP response: a status code and a body.  The Python code never
reads the status code; carrying it lets us state that fact. -/
structure Response where
  status : Nat
  body : Body
  deriving DecidableEq

/-- Embedding of the Python `PriceInfo` named tuple.  The code stores
`data['value']` into `price` without any conversion, so the field holds a
raw JSON value. -/
structure PriceInfo where
  price : JsonVal
  deriving DecidableEq

/-- Embedding of the Python `TokenOverview` named tuple; each field holds
the raw JSON value stored by the code, untransformed. -/
structure TokenOverview where
  address : JsonVal
  decimals : JsonVal
  liquidity : JsonVal
  logoURI : JsonVal
  mc : JsonVal
  symbol : JsonVal
  v24hChangePercent : JsonVal
  v24hUSD : JsonVal
  name : JsonVal
  lastTradeUnixTime : JsonVal
  deriving DecidableEq

/-- The three error conditions the client raises.  In Python each is a
`ValueError` whose message (see `errMsg`, `overviewErrMsg`) identifies the
condition. -/
inductive Err where
  | invalidInput
  | invalidResponse (address : String)
  | unsupportedMethod (method url : String)
  deriving DecidableEq

/-- Embedding of Python's `str.upper` for the ASCII range (Lean's
`Char.toUpper` maps `a`-`z` to `A`-`Z` and fixes everything else, which
agrees with Python on ASCII input). -/
def upper (s : String) : String :=
  ⟨s.data.map Char.toUpper⟩

/-- Python `dict` lookup `d[k]` on an association list: `some v` for the
stored value, `none` when the key is absent (Python: `KeyError`). -/
def dictLookup {α : Type} : List (String × α) → String → Option α
  | [], _ => none
  | (k', v) :: rest, k => if k' = k then some v else dictLookup rest k

/-- Python `dict` assignment `d[k] = v` on an association list: replaces
the value at an existing key in place, otherwise appends the pair. -/
def dictInsert {α : Type} : List (String × α) → String → α → List (String × α)
  | [], k, v => [(k, v)]
  | (k', v') :: rest, k, v =>
    if k' = k then (k, v) :: rest else (k', v') :: dictInsert rest k v

/-- Embedding of `BirdEyeClient._make_api_call`: matches on
`method.upper()`, dispatches the request with the corresponding verb, and
raises `ValueError` (our `Err.unsupportedMethod`) otherwise, issuing no
request in that case.  Returns the response (or error) together with the
list of issued `(verb, url)` requests. -/
def make_api_call (net : String → String → Response) (method query_url : String) :
    Except Err Response × List (String × String) :=
  match upper method with
  | "GET" => (.ok (net "GET" query_url), [("GET", query_url)])
  | "POST" => (.ok (net "POST" query_url), [("POST", query_url)])
  | _ => (.error (.unsupportedMethod method query_url), [])

/-- The URL built by `fetch_prices` for one token address. -/
def priceUrl (address : String) : String :=
  "https://public-api.birdeye.so/public/price?address=" ++ address

/-- The URL built by `fetch_token_overview` for one token address. -/
def overviewUrl (address : String) : String :=
  "https://public-api.birdeye.so/defi/token_overview?address=" ++ address

/-- The loop body of `fetch_prices`: for each address issue a GET, parse
the body, extract `data['value']` into the accumulating dict; any
`ValueError`/`KeyError` in the try block aborts with
`Err.invalidResponse address`. -/
def fetchPricesLoop (net : String → String → Response) :
    List String → List (String × PriceInfo) → List (String × String) →
    Except Err (List (String × PriceInfo)) × List (String × String)
  | [], prices, log => (.ok prices, log)
  | address :: rest, prices, log =>
    match make_api_call net "GET" (priceUrl address) with
    | (.error _, issued) => (.error (.invalidResponse address), log ++ issued)
    | (.ok resp, issued) =>
      match resp.body with
      | .malformed => (.error (.invalidResponse address), log ++ issued)
      | .obj fields =>
        match dictLookup fields "value" with
        | none => (.error (.invalidResponse address), log ++ issued)
        | some v =>
          fetchPricesLoop net rest (dictInsert prices address ⟨v⟩) (log ++ issued)

/-- Embedding of `BirdEyeClient.fetch_prices`.  Returns the Python result
(the dict of prices, or the raised error) together with the list of
network requests issued. -/
def fetch_prices (net : String → String → Response) (token_addresses : List String) :
    Except Err (List (String × PriceInfo)) × List (String × String) :=
  match token_addresses with
  | [] => (.error .invalidInput, [])
  | _ :: _ => fetchPricesLoop net token_addresses [] []

/-- The field extraction of `fetch_token_overview`: reads the ten keys in
source order; the first missing key raises `KeyError` (here: `none`). -/
def parseOverview (fields : List (String × JsonVal)) : Option TokenOverview := do
  let addressV ← dictLookup fields "address"
  let decimalsV ← dictLookup fields "decimals"
  let liquidityV ← dictLookup fields "liquidity"
  let logoURIV ← dictLookup fields "logoURI"
  let mcV ← dictLookup fields "mc"
  let symbolV ← dictLookup fields "symbol"
  let v24hChangePercentV ← dictLookup fields "v24hChangePercent"
  let v24hUSDV ← dictLookup fields "v24hUSD"
  let nameV ← dictLookup fields "name"
  let lastTradeUnixTimeV ← dictLookup fields "lastTradeUnixTime"
  pure ⟨addressV, decimalsV, liquidityV, logoURIV, mcV, symbolV,
        v24hChangePercentV, v24hUSDV, nameV, lastTradeUnixTimeV⟩

/-- Embedding of `BirdEyeClient.fetch_token_overview`.  Returns the Python
result together with the list of network requests issued. -/
def fetch_token_overview (net : String → String → Response) (address : String) :
    Except Err TokenOverview × List (String × String) :=
  match make_api_call net "GET" (overviewUrl address) with
  | (.error _, issued) => (.error (.invalidResponse address), issued)
  | (.ok resp, issued) =>
    match resp.body with
    | .malformed => (.error (.invalidResponse address), issued)
    | .obj fields =>
      match parseOverview fields with
      | none => (.error (.invalidResponse address), issued)
      | some t => (.ok t, issued)

/-- The `data['value']` a given address yields under a given network
oracle, if the GET on its price URL parses as an object holding the key. -/
def priceValue (net : String → String → Response) (address : String) : Option JsonVal :=
  match (net "GET" (priceUrl address)).body with
  | .malformed => none
  | .obj fields => dictLookup fields "value"

/-- The ten JSON keys `fetch_token_overview` reads, in source order. -/
def requiredKeys : List String :=
  ["address", "decimals", "liquidity", "logoURI", "mc", "symbol",
   "v24hChangePercent", "v24hUSD", "name", "lastTradeUnixTime"]

/-- The exact message strings of the `ValueError`s raised in the source:
`fetch_prices` input check, `fetch_prices` response failure, and
`_make_api_call` method dispatch. -/
def errMsg : Err → String
  | .invalidInput => "No tokens provided."
  | .invalidResponse address => "Invalid response received for token: " ++ address
  | .unsupportedMethod method url =>
      "Unrecognised method \"" ++ method ++ "\" passed for query - " ++ url

/-- The message of the `ValueError` raised by `fetch_token_overview` on a
bad response (its wording differs from the `fetch_prices` one). -/
def overviewErrMsg (address : String) : String :=
  "Invalid response received for token overview: " ++ address

/-- The three error conditions of the spec's taxonomy. -/
inductive ErrKind where
  | invalidInputK
  | invalidResponseK
  | unsupportedMethodK
  deriving DecidableEq

/-- The condition an `Err` represents. -/
def kindOf : Err → ErrKind
  | .invalidInput => .invalidInputK
  | .invalidResponse _ => .invalidResponseK
  | .unsupportedMethod _ _ => .unsupportedMethodK

/-- A caller-side decision procedure on the raised message: the three
message families begin with pairwise distinct characters. -/
def classify (s : String) : Option ErrKind :=
  match s.data with
  | 'N' :: _ => some .invalidInputK
  | 'I' :: _ => some .invalidResponseK
  | 'U' :: _ => some .unsupportedMethodK
  | _ => none

/-- One iteration of the `fetch_prices` loop as a fold step: insert the
fetched value for the address (total on addresses whose response is
well-formed; the `none` branch is never taken under that hypothesis). -/
def insStep (net : String → String → Response)
    (d : List (String × PriceInfo)) (address : String) : List (String × PriceInfo) :=
  match priceValue net address with
  | some v => dictInsert d address ⟨v⟩
  | none => d

/-- A concrete network oracle realising the spec's worked example: the two
price URLs for `ADDR1` and `ADDR2` answer with `{"value": 1.23}` and
`{"value": 4.56}`; every other URL answers with an empty JSON object. -/
def exampleNet : String → String → Response := fun _ url =>
  if url = priceUrl "ADDR1" then ⟨200, .obj [("value", .num (123/100))]⟩
  else if url = priceUrl "ADDR2" then ⟨200, .obj [("value", .num (456/100))]⟩
  else ⟨200, .obj []⟩

/-- A concrete oracle where `ADDR1` answers well-formed but every other
URL answers with an object that lacks the `value` key. -/
def badNet : String → String → Response := fun _ url =>
  if url = priceUrl "ADDR1" then ⟨200, .obj [("value", .num 1)]⟩
  else ⟨200, .obj [("data", JsonVal.null)]⟩

/-- A concrete oracle whose overview URL for `TOK` answers with all ten
required keys; every other URL answers with an unparseable body. -/
def overviewNet : String → String → Response := fun _ url =>
  if url = overviewUrl "TOK" then
    ⟨200, .obj [("address", .str "TOK"), ("decimals", .num 9),
                ("liquidity", .num 5), ("logoURI", .str "https://logo"),
                ("mc", .num 7), ("symbol", .str "T"),
                ("v24hChangePercent", .num 2), ("v24hUSD", .num 3),
                ("name", .str "Token"), ("lastTradeUnixTime", .num 1700000000)]⟩
  else ⟨200, .malformed⟩

/-- A concrete oracle answering every URL with an object holding only two
of the ten overview keys. -/
def missingKeyNet : String → String → Response := fun _ _ =>
  ⟨200, .obj [("address", .str "TOK"), ("decimals", .num 9)]⟩

/-- A concrete oracle answering every URL with an empty JSON object. -/
def plainNet : String → String → Response := fun _ _ =>
  ⟨200, .obj []⟩

/-- A body-only view of a server, shared by the two status oracles below. -/
def bodyOf : String → Body := fun url =>
  if url = priceUrl "ADDR1" then .obj [("value", .num 1)] else .malformed

/-- An oracle serving `bodyOf` with HTTP status 200 everywhere. -/
def statusNet200 : String → String → Response := fun _ url =>
  ⟨200, bodyOf url⟩

/-- An oracle serving the same bodies as `statusNet200` but with HTTP
status 500 everywhere. -/
def statusNet500 : String → String → Response := fun _ url =>
  ⟨500, bodyOf url⟩

-- Basic facts used throughout.

theorem upper_GET : upper "GET" = "GET" := rfl

theorem make_api_call_GET (net : String → String → Response) (url : String) :
    make_api_call net "GET" url = (.ok (net "GET" url), [("GET", url)]) := rfl

theorem dictLookup_dictInsert {α : Type} (d : List (String × α)) (k k' : String) (v : α) :
    dictLookup (dictInsert d k v) k' = if k = k' then some v else dictLookup d k' := by
  induction d with
  | nil => simp [dictInsert, dictLookup]
  | cons hd tl ih =>
    obtain ⟨k₀, v₀⟩ := hd
    by_cases h0 : k₀ = k
    · subst h0
      by_cases h1 : k₀ = k' <;> simp [dictInsert, dictLookup, h1]
    · simp only [dictInsert, if_neg h0, dictLookup]
      by_cases h1 : k₀ = k'
      · subst h1
        have : ¬ k = k₀ := fun h => h0 h.symm
        simp [this, dictLookup]
      · simp [h1, ih]

theorem dictLookup_isSome_iff {α : Type} (d : List (String × α)) (k : String) :
    (dictLookup d k).isSome ↔ k ∈ d.map Prod.fst := by
  induction d with
  | nil => simp [dictLookup]
  | cons hd tl ih =>
    obtain ⟨k₀, v₀⟩ := hd
    by_cases h : k₀ = k
    · subst h
      simp [dictLookup]
    · have hk : ¬ k = k₀ := fun h' => h h'.symm
      simp only [dictLookup, if_neg h, ih, List.map_cons, List.mem_cons]
      tauto

theorem mem_keys_dictInsert {α : Type} (d : List (String × α)) (k a : String) (v : α) :
    a ∈ (dictInsert d k v).map Prod.fst ↔ a = k ∨ a ∈ d.map Prod.fst := by
  induction d with
  | nil => simp [dictInsert]
  | cons hd tl ih =>
    obtain ⟨k₀, v₀⟩ := hd
    by_cases h : k₀ = k
    · subst h
      simp [dictInsert]
    · simp only [dictInsert, if_neg h, List.map_cons, List.mem_cons, ih]
      tauto

theorem nodup_keys_dictInsert {α : Type} (d : List (String × α)) (k : String) (v : α)
    (hd : (d.map Prod.fst).Nodup) : ((dictInsert d k v).map Prod.fst).Nodup := by
  induction d with
  | nil => simp [dictInsert]
  | cons p tl ih =>
    obtain ⟨k₀, v₀⟩ := p
    simp only [List.map_cons, List.nodup_cons] at hd
    by_cases h : k₀ = k
    · subst h
      simpa [dictInsert] using hd
    · simp only [dictInsert, if_neg h, List.map_cons, List.nodup_cons]
      refine ⟨?_, ih hd.2⟩
      rw [mem_keys_dictInsert]
      push_neg
      exact ⟨h, hd.1⟩

theorem fetchPricesLoop_ok (net : String → String → Response) :
    ∀ (rest : List String) (prices : List (String × PriceInfo))
      (log : List (String × String)),
      (∀ a ∈ rest, (priceValue net a).isSome) →
      fetchPricesLoop net rest prices log =
        (.ok (rest.foldl (insStep net) prices),
         log ++ rest.map (fun a => ("GET", priceUrl a)))
  | [], prices, log, _ => by simp [fetchPricesLoop]
  | a :: rest, prices, log, h => by
    have ha : (priceValue net a).isSome := h a (List.mem_cons_self a rest)
    obtain ⟨v, hv⟩ := Option.isSome_iff_exists.mp ha
    have hrest : ∀ b ∈ rest, (priceValue net b).isSome :=
      fun b hb => h b (List.mem_cons_of_mem a hb)
    simp only [fetchPricesLoop, make_api_call_GET]
    cases hb : (net "GET" (priceUrl a)).body with
    | malformed => simp [priceValue, hb] at hv
    | obj fields =>
      have hlook : dictLookup fields "value" = some v := by
        simpa [priceValue, hb] using hv
      simp only [hlook]
      rw [fetchPricesLoop_ok net rest _ _ hrest]
      simp [List.foldl_cons, insStep, hv, List.append_assoc]

theorem dictLookup_foldl_insStep (net : String → String → Response) :
    ∀ (addrs : List String) (prices : List (String × PriceInfo)) (a : String),
      (∀ b ∈ addrs, (priceValue net b).isSome) →
      dictLookup (addrs.foldl (insStep net) prices) a =
        if a ∈ addrs then (priceValue net a).map PriceInfo.mk
        else dictLookup prices a
  | [], prices, a, _ => by simp
  | b :: rest, prices, a, h => by
    obtain ⟨vb, hvb⟩ := Option.isSome_iff_exists.mp (h b (List.mem_cons_self b rest))
    have hrest : ∀ c ∈ rest, (priceValue net c).isSome :=
      fun c hc => h c (List.mem_cons_of_mem b hc)
    rw [List.foldl_cons, dictLookup_foldl_insStep net rest _ a hrest]
    by_cases hmem : a ∈ rest
    · simp [hmem]
    · by_cases hab : a = b
      · subst hab
        simp [hmem, insStep, hvb, dictLookup_dictInsert]
      · have hba : ¬ b = a := fun h' => hab h'.symm
        have hnot : a ∉ b :: rest := by simp [hab, hmem]
        rw [if_neg hmem, if_neg hnot]
        simp only [insStep, hvb]
        rw [dictLookup_dictInsert, if_neg hba]

theorem mem_keys_foldl_insStep (net : String → String → Response) :
    ∀ (addrs : List String) (prices : List (String × PriceInfo)) (a : String),
      (∀ b ∈ addrs, (priceValue net b).isSome) →
      (a ∈ (addrs.foldl (insStep net) prices).map Prod.fst ↔
        a ∈ prices.map Prod.fst ∨ a ∈ addrs)
  | [], prices, a, _ => by simp
  | b :: rest, prices, a, h => by
    obtain ⟨vb, hvb⟩ := Option.isSome_iff_exists.mp (h b (List.mem_cons_self b rest))
    have hrest : ∀ c ∈ rest, (priceValue net c).isSome :=
      fun c hc => h c (List.mem_cons_of_mem b hc)
    rw [List.foldl_cons, mem_keys_foldl_insStep net rest _ a hrest]
    simp only [insStep, hvb, mem_keys_dictInsert, List.mem_cons]
    tauto

theorem nodup_keys_foldl_insStep (net : String → String → Response) :
    ∀ (addrs : List String) (prices : List (String × PriceInfo)),
      ((prices.map Prod.fst).Nodup) →
      (((addrs.foldl (insStep net) prices).map Prod.fst).Nodup)
  | [], prices, h => h
  | b :: rest, prices, h => by
    rw [List.foldl_cons]
    apply nodup_keys_foldl_insStep net rest
    cases hvb : priceValue net b with
    | none => simpa [insStep, hvb] using h
    | some v =>
      simp only [insStep, hvb]
      exact nodup_keys_dictInsert prices b ⟨v⟩ h

theorem fetch_prices_ne_nil (net : String → String → Response)
    (token_addresses : List String) (h : token_addresses ≠ []) :
    fetch_prices net token_addresses = fetchPricesLoop net token_addresses [] [] := by
  cases token_addresses with
  | nil => exact absurd rfl h
  | cons b rest => rfl

theorem fetchPricesLoop_err (net : String → String → Response) (a : String)
    (post : List String) (hbad : priceValue net a = none) :
    ∀ (pre : List String) (prices : List (String × PriceInfo))
      (log : List (String × String)),
      (∀ b ∈ pre, (priceValue net b).isSome) →
      fetchPricesLoop net (pre ++ a :: post) prices log =
        (.error (.invalidResponse a),
         log ++ (pre ++ [a]).map (fun b => ("GET", priceUrl b)))
  | [], prices, log, _ => by
    simp only [List.nil_append, fetchPricesLoop, make_api_call_GET]
    cases hb : (net "GET" (priceUrl a)).body with
    | malformed => simp
    | obj fields =>
      have hnone : dictLookup fields "value" = none := by
        simpa [priceValue, hb] using hbad
      simp [hnone]
  | b :: pre, prices, log, h => by
    obtain ⟨vb, hvb⟩ := Option.isSome_iff_exists.mp (h b (List.mem_cons_self b pre))
    have hpre : ∀ c ∈ pre, (priceValue net c).isSome :=
      fun c hc => h c (List.mem_cons_of_mem b hc)
    simp only [List.cons_append, fetchPricesLoop, make_api_call_GET]
    cases hb : (net "GET" (priceUrl b)).body with
    | malformed => simp [priceValue, hb] at hvb
    | obj fields =>
      have hlook : dictLookup fields "value" = some vb := by
        simpa [priceValue, hb] using hvb
      simp only [hlook, List.append_eq]
      rw [fetchPricesLoop_err net a post hbad pre _ _ hpre]
      simp [List.append_assoc]

theorem fetchPricesLoop_body_congr (net1 net2 : String → String → Response)
    (hb : ∀ v u, (net1 v u).body = (net2 v u).body) :
    ∀ (rest : List String) (prices : List (String × PriceInfo))
      (log : List (String × String)),
      fetchPricesLoop net1 rest prices log = fetchPricesLoop net2 rest prices log
  | [], _, _ => rfl
  | a :: rest, prices, log => by
    simp only [fetchPricesLoop, make_api_call_GET, hb "GET" (priceUrl a)]
    cases (net2 "GET" (priceUrl a)).body with
    | malformed => rfl
    | obj fields =>
      cases hlook : dictLookup fields "value" with
      | none => simp [hlook]
      | some v =>
        simp only [hlook]
        exact fetchPricesLoop_body_congr net1 net2 hb rest _ _

theorem parseOverview_isSome_keys (fields : List (String × JsonVal)) (t : TokenOverview)
    (h : parseOverview fields = some t) :
    ∀ k ∈ requiredKeys, (dictLookup fields k).isSome := by
  simp only [parseOverview, Option.pure_def, Option.bind_eq_bind,
    Option.bind_eq_some] at h
  obtain ⟨v1, h1, h⟩ := h
  obtain ⟨v2, h2, h⟩ := h
  obtain ⟨v3, h3, h⟩ := h
  obtain ⟨v4, h4, h⟩ := h
  obtain ⟨v5, h5, h⟩ := h
  obtain ⟨v6, h6, h⟩ := h
  obtain ⟨v7, h7, h⟩ := h
  obtain ⟨v8, h8, h⟩ := h
  obtain ⟨v9, h9, h⟩ := h
  obtain ⟨v10, h10, h⟩ := h
  intro k hk
  simp only [requiredKeys, List.mem_cons, List.not_mem_nil, or_false] at hk
  rcases hk with rfl | rfl | rfl | rfl | rfl | rfl | rfl | rfl | rfl | rfl <;>
    simp [h1, h2, h3, h4, h5, h6, h7, h8, h9, h10]

theorem fetch_token_overview_body_congr (net1 net2 : String → String → Response)
    (hb : ∀ v u, (net1 v u).body = (net2 v u).body) (address : String) :
    fetch_token_overview net1 address = fetch_token_overview net2 address := by
  simp only [fetch_token_overview, make_api_call_GET, hb "GET" (overviewUrl address)]

/-- Claim C1: for every non-empty address list whose per-address response
bodies are well-formed JSON objects containing the key `value`,
`fetch_prices` succeeds; the returned dict's key set equals the input
address set exactly, and each address maps to a `PriceInfo` holding that
address's `value` field. -/
theorem fetch_prices_complete_on_wellformed (net : String → String → Response)
    (token_addresses : List String)
    (hne : token_addresses ≠ [])
    (hgood : ∀ a ∈ token_addresses, (priceValue net a).isSome) :
    ∃ d, (fetch_prices net token_addresses).1 = .ok d ∧
      (∀ a, a ∈ d.map Prod.fst ↔ a ∈ token_addresses) ∧
      (∀ a ∈ token_addresses,
        dictLookup d a = (priceValue net a).map PriceInfo.mk) := by
  refine ⟨token_addresses.foldl (insStep net) [], ?_, ?_, ?_⟩
  · rw [fetch_prices_ne_nil net token_addresses hne,
      fetchPricesLoop_ok net token_addresses [] [] hgood]
  · intro a
    rw [mem_keys_foldl_insStep net token_addresses [] a hgood]
    simp
  · intro a ha
    rw [dictLookup_foldl_insStep net token_addresses [] a hgood, if_pos ha]

/-- Witness for C1, realising the spec's worked example: addresses
`ADDR1`, `ADDR2` with bodies `{"value": 1.23}` and `{"value": 4.56}`. -/
theorem fetch_prices_complete_on_wellformed_witness :
    ∃ d, (fetch_prices exampleNet ["ADDR1", "ADDR2"]).1 = .ok d ∧
      (∀ a, a ∈ d.map Prod.fst ↔ a ∈ ["ADDR1", "ADDR2"]) ∧
      (∀ a ∈ ["ADDR1", "ADDR2"],
        dictLookup d a = (priceValue exampleNet a).map PriceInfo.mk) :=
  fetch_prices_complete_on_wellformed exampleNet ["ADDR1", "ADDR2"]
    (by decide) (by decide)

/-- Claim C2: if some address's response fails JSON parsing or lacks the
`value` key (and every address before it parses fine), the entire
`fetch_prices` call fails with `InvalidResponse` naming that address, and
no partial mapping is returned. -/
theorem fetch_prices_all_or_nothing (net : String → String → Response)
    (pre post : List String) (a : String)
    (hpre : ∀ b ∈ pre, (priceValue net b).isSome)
    (hbad : priceValue net a = none) :
    (fetch_prices net (pre ++ a :: post)).1 = .error (.invalidResponse a) ∧
    ∀ d, (fetch_prices net (pre ++ a :: post)).1 ≠ .ok d := by
  have hne : pre ++ a :: post ≠ [] := by simp
  rw [fetch_prices_ne_nil net _ hne,
    fetchPricesLoop_err net a post hbad pre [] [] hpre]
  exact ⟨rfl, fun d h => by simp at h⟩

/-- Witness for C2: `ADDR1` answers well-formed, `ADDR2`'s body lacks the
`value` key; the whole batch fails naming `ADDR2`. -/
theorem fetch_prices_all_or_nothing_witness :
    (fetch_prices badNet (["ADDR1"] ++ "ADDR2" :: [])).1 =
      .error (.invalidResponse "ADDR2") ∧
    ∀ d, (fetch_prices badNet (["ADDR1"] ++ "ADDR2" :: [])).1 ≠ .ok d :=
  fetch_prices_all_or_nothing badNet ["ADDR1"] [] "ADDR2" (by decide) (by decide)

/-- Claim C3: on a response body containing the ten required JSON keys,
`fetch_token_overview` returns a `TokenOverview` whose ten fields are
exactly the ten corresponding JSON values, untransformed (and it issues
exactly the one GET request). -/
theorem fetch_token_overview_extracts_fields (net : String → String → Response)
    (address : String) (fields : List (String × JsonVal))
    (va vdec vliq vlogo vmc vsym vchg vusd vname vlast : JsonVal)
    (hb : (net "GET" (overviewUrl address)).body = .obj fields)
    (h1 : dictLookup fields "address" = some va)
    (h2 : dictLookup fields "decimals" = some vdec)
    (h3 : dictLookup fields "liquidity" = some vliq)
    (h4 : dictLookup fields "logoURI" = some vlogo)
    (h5 : dictLookup fields "mc" = some vmc)
    (h6 : dictLookup fields "symbol" = some vsym)
    (h7 : dictLookup fields "v24hChangePercent" = some vchg)
    (h8 : dictLookup fields "v24hUSD" = some vusd)
    (h9 : dictLookup fields "name" = some vname)
    (h10 : dictLookup fields "lastTradeUnixTime" = some vlast) :
    fetch_token_overview net address =
      (.ok ⟨va, vdec, vliq, vlogo, vmc, vsym, vchg, vusd, vname, vlast⟩,
       [("GET", overviewUrl address)]) := by
  simp [fetch_token_overview, make_api_call_GET, hb, parseOverview,
    h1, h2, h3, h4, h5, h6, h7, h8, h9, h10]

/-- Witness for C3: a fully-populated overview body for address `TOK`. -/
theorem fetch_token_overview_extracts_fields_witness :
    fetch_token_overview overviewNet "TOK" =
      (.ok ⟨.str "TOK", .num 9, .num 5, .str "https://logo", .num 7, .str "T",
            .num 2, .num 3, .str "Token", .num 1700000000⟩,
       [("GET", overviewUrl "TOK")]) :=
  fetch_token_overview_extracts_fields overviewNet "TOK"
    [("address", .str "TOK"), ("decimals", .num 9),
     ("liquidity", .num 5), ("logoURI", .str "https://logo"),
     ("mc", .num 7), ("symbol", .str "T"),
     ("v24hChangePercent", .num 2), ("v24hUSD", .num 3),
     ("name", .str "Token"), ("lastTradeUnixTime", .num 1700000000)]
    (.str "TOK") (.num 9) (.num 5) (.str "https://logo") (.num 7) (.str "T")
    (.num 2) (.num 3) (.str "Token") (.num 1700000000)
    (by decide) (by decide) (by decide) (by decide) (by decide) (by decide)
    (by decide) (by decide) (by decide) (by decide) (by decide)

/-- Claim C4: `fetch_prices` on the empty address list always fails with
`InvalidInput`, for every network oracle, issuing no request. -/
theorem fetch_prices_empty_invalid_input (net : String → String → Response) :
    fetch_prices net [] = (.error .invalidInput, []) := rfl

/-- Claim C5: `fetch_token_overview` on a body that is not valid JSON, or
that lacks any one of the ten required keys, fails with `InvalidResponse`
naming the address. -/
theorem fetch_token_overview_bad_response (net : String → String → Response)
    (address : String)
    (h : (net "GET" (overviewUrl address)).body = Body.malformed ∨
      ∃ fields, (net "GET" (overviewUrl address)).body = .obj fields ∧
        ∃ k ∈ requiredKeys, dictLookup fields k = none) :
    (fetch_token_overview net address).1 = .error (.invalidResponse address) := by
  rcases h with h | ⟨fields, hb, k, hk, hnone⟩
  · simp [fetch_token_overview, make_api_call_GET, h]
  · cases hp : parseOverview fields with
    | some t =>
      have hs := parseOverview_isSome_keys fields t hp k hk
      rw [hnone] at hs
      simp at hs
    | none => simp [fetch_token_overview, make_api_call_GET, hb, hp]

/-- Witness for C5: a body holding only two of the ten keys (missing
`liquidity` among others) makes the call fail naming the address. -/
theorem fetch_token_overview_bad_response_witness :
    (fetch_token_overview missingKeyNet "TOK").1 =
      .error (.invalidResponse "TOK") :=
  fetch_token_overview_bad_response missingKeyNet "TOK"
    (Or.inr ⟨[("address", .str "TOK"), ("decimals", .num 9)], by decide,
      "liquidity", by decide, by decide⟩)

/-- Counterexample to C6 as stated: `"get"` is a method string other than
`"GET"` or `"POST"`, yet `_make_api_call` does not fail — it uppercases
the method first, dispatches a GET, and issues the network call. -/
theorem make_api_call_lowercase_get_dispatches :
    ("get" ≠ "GET" ∧ "get" ≠ "POST") ∧
    make_api_call plainNet "get" "https://example" =
      (.ok (plainNet "GET" "https://example"), [("GET", "https://example")]) :=
  ⟨⟨by decide, by decide⟩, rfl⟩

/-- Claim C6 (amended): for every method string whose uppercased form is
neither `GET` nor `POST`, and every URL, `_make_api_call` fails with
`UnsupportedMethod` carrying that method and URL, issuing no network
request. -/
theorem make_api_call_unsupported_method (net : String → String → Response)
    (method url : String)
    (h1 : upper method ≠ "GET") (h2 : upper method ≠ "POST") :
    make_api_call net method url =
      (.error (.unsupportedMethod method url), []) := by
  unfold make_api_call
  split <;> simp_all

/-- Witness for C6 (amended): dispatching `DELETE` fails, naming the
method and URL, with no request issued. -/
theorem make_api_call_unsupported_method_witness :
    make_api_call plainNet "DELETE" "https://example" =
      (.error (.unsupportedMethod "DELETE" "https://example"), []) :=
  make_api_call_unsupported_method plainNet "DELETE" "https://example"
    (by decide) (by decide)

/-- Claim C7: the three failure conditions are caller-distinguishable:
from any raised message (the `fetch_prices` messages rendered by `errMsg`
and the `fetch_token_overview` variant `overviewErrMsg`), `classify`
recovers which of the three conditions produced it. -/
theorem err_messages_distinguishable :
    (∀ e : Err, classify (errMsg e) = some (kindOf e)) ∧
    (∀ address : String,
      classify (overviewErrMsg address) = some ErrKind.invalidResponseK) := by
  constructor
  · intro e
    cases e with
    | invalidInput => rfl
    | invalidResponse address =>
      obtain ⟨l⟩ := address
      rfl
    | unsupportedMethod method url =>
      obtain ⟨lm⟩ := method
      obtain ⟨lu⟩ := url
      rfl
  · intro address
    obtain ⟨l⟩ := address
    rfl

/-- Claim C8: the HTTP status code is never inspected: two oracles whose
responses carry identical bodies (but possibly different status codes)
produce identical outcomes — same result or same error, and the same
requests — for `fetch_prices` and for `fetch_token_overview`. -/
theorem status_code_never_inspected (net1 net2 : String → String → Response)
    (token_addresses : List String) (address : String)
    (hb : ∀ v u, (net1 v u).body = (net2 v u).body) :
    fetch_prices net1 token_addresses = fetch_prices net2 token_addresses ∧
    fetch_token_overview net1 address = fetch_token_overview net2 address := by
  constructor
  · cases token_addresses with
    | nil => rfl
    | cons b rest =>
      exact fetchPricesLoop_body_congr net1 net2 hb (b :: rest) [] []
  · exact fetch_token_overview_body_congr net1 net2 hb address

/-- Witness for C8: the same bodies behind status 200 and status 500 give
identical outcomes on both operations. -/
theorem status_code_never_inspected_witness :
    fetch_prices statusNet200 ["ADDR1"] = fetch_prices statusNet500 ["ADDR1"] ∧
    fetch_token_overview statusNet200 "ADDR1" =
      fetch_token_overview statusNet500 "ADDR1" :=
  status_code_never_inspected statusNet200 statusNet500 ["ADDR1"] "ADDR1"
    (fun _ _ => rfl)

/-- Claim C9: with duplicate addresses in the input (all well-formed), one
GET request is issued per list occurrence, yet the dict has exactly one
entry per distinct address — its key list is duplicate-free, its key set
is the input's address set, each address maps to the value its URL
yields (so in particular the last occurrence's, the oracle being a
function of the URL) — and with duplicates present the dict is strictly
shorter than the input list. -/
theorem fetch_prices_duplicate_addresses (net : String → String → Response)
    (token_addresses : List String)
    (hne : token_addresses ≠ [])
    (hgood : ∀ a ∈ token_addresses, (priceValue net a).isSome) :
    ∃ d, fetch_prices net token_addresses =
        (.ok d, token_addresses.map fun a => ("GET", priceUrl a)) ∧
      (d.map Prod.fst).Nodup ∧
      (∀ a, a ∈ d.map Prod.fst ↔ a ∈ token_addresses) ∧
      (∀ a ∈ token_addresses,
        dictLookup d a = (priceValue net a).map PriceInfo.mk) ∧
      (¬ token_addresses.Nodup → d.length < token_addresses.length) := by
  refine ⟨token_addresses.foldl (insStep net) [], ?_, ?_, ?_, ?_, ?_⟩
  · rw [fetch_prices_ne_nil net token_addresses hne,
      fetchPricesLoop_ok net token_addresses [] [] hgood]
    simp
  · exact nodup_keys_foldl_insStep net token_addresses [] (by simp)
  · intro a
    rw [mem_keys_foldl_insStep net token_addresses [] a hgood]
    simp
  · intro a ha
    rw [dictLookup_foldl_insStep net token_addresses [] a hgood, if_pos ha]
  · intro hnd
    set d := token_addresses.foldl (insStep net) [] with hd
    have hkeysnodup : (d.map Prod.fst).Nodup :=
      nodup_keys_foldl_insStep net token_addresses [] (by simp)
    have hmemkeys : ∀ x, x ∈ d.map Prod.fst ↔ x ∈ token_addresses := by
      intro x
      rw [hd, mem_keys_foldl_insStep net token_addresses [] x hgood]
      simp
    have hfin : (d.map Prod.fst).toFinset = token_addresses.toFinset := by
      ext x
      simp only [List.mem_toFinset]
      exact hmemkeys x
    have h1 : d.length = (d.map Prod.fst).length := by simp
    have h2 : (d.map Prod.fst).length = (d.map Prod.fst).toFinset.card :=
      (List.toFinset_card_of_nodup hkeysnodup).symm
    have h3 : token_addresses.toFinset.card =
        token_addresses.dedup.length := List.card_toFinset token_addresses
    have h4 : token_addresses.dedup.length < token_addresses.length := by
      rcases Nat.lt_or_ge token_addresses.dedup.length token_addresses.length
        with hlt | hge
      · exact hlt
      · exfalso
        have hsub := List.dedup_sublist token_addresses
        have heq : token_addresses.dedup = token_addresses :=
          hsub.eq_of_length (Nat.le_antisymm hsub.length_le hge)
        exact hnd (heq ▸ List.nodup_dedup token_addresses)
    rw [h1, h2, hfin, h3]
    exact h4

/-- Witness for C9: the input `["ADDR1", "ADDR1"]` issues two requests
yet the dict has a single entry. -/
theorem fetch_prices_duplicate_addresses_witness :
    ∃ d, fetch_prices exampleNet ["ADDR1", "ADDR1"] =
        (.ok d, ["ADDR1", "ADDR1"].map fun a => ("GET", priceUrl a)) ∧
      (d.map Prod.fst).Nodup ∧
      (∀ a, a ∈ d.map Prod.fst ↔ a ∈ ["ADDR1", "ADDR1"]) ∧
      (∀ a ∈ ["ADDR1", "ADDR1"],
        dictLookup d a = (priceValue exampleNet a).map PriceInfo.mk) ∧
      (¬ (["ADDR1", "ADDR1"] : List String).Nodup →
        d.length < (["ADDR1", "ADDR1"] : List String).length) :=
  fetch_prices_duplicate_addresses exampleNet ["ADDR1", "ADDR1"]
    (by decide) (by decide)

/-- Claim C10: method dispatch is case-insensitive: any method whose
uppercased form is `GET` or `POST` dispatches to that verb, issuing the
one request, and the `UnsupportedMethod` branch is not taken. -/
theorem make_api_call_case_insensitive (net : String → String → Response)
    (method url : String)
    (h : upper method = "GET" ∨ upper method = "POST") :
    make_api_call net method url =
      (.ok (net (upper method) url), [(upper method, url)]) ∧
    ∀ e : Err, (make_api_call net method url).1 ≠ .error e := by
  have hmain : make_api_call net method url =
      (.ok (net (upper method) url), [(upper method, url)]) := by
    rcases h with h | h <;> simp [make_api_call, h]
  exact ⟨hmain, fun e => by rw [hmain]; simp⟩

/-- Witness for C10: both `"get"` and `"Post"` dispatch successfully. -/
theorem make_api_call_case_insensitive_witness :
    (make_api_call plainNet "get" "https://example" =
        (.ok (plainNet (upper "get") "https://example"),
         [(upper "get", "https://example")]) ∧
      ∀ e : Err, (make_api_call plainNet "get" "https://example").1 ≠ .error e) ∧
    (make_api_call plainNet "Post" "https://example" =
        (.ok (plainNet (upper "Post") "https://example"),
         [(upper "Post", "https://example")]) ∧
      ∀ e : Err, (make_api_call plainNet "Post" "https://example").1 ≠ .error e) :=
  ⟨make_api_call_case_insensitive plainNet "get" "https://example"
      (Or.inl (by decide)),
   make_api_call_case_insensitive plainNet "Post" "https://example"
      (Or.inr (by decide))⟩
